import Mathlib

set_option maxRecDepth 4000

/-!
Verification development for the Project-Consumer AI scraper / recommender.

The definitions below are a shallow embedding of the JavaScript source:

* recommendation aggregation (`getRecommendationsByType`, `findSequelsAndSeries`,
  `extractSeriesInfo`, `calculateMetadataSimilarity`, `compareArrays`),
* the by-id similarity entry point (`recommendById`),
* the user-facing orchestrator (`recommendForUser`),
* the ingestion retry helper (`withRetry`) and batch loop (`ingestCollection`).

External services (MongoDB collections, the Pinecone vector index, the
embedding API) are modelled as explicit function-valued parameters; numbers
are modelled as exact rationals; JavaScript exceptions are modelled with
`Except`.  Titles are lists of characters; ids and type tags are strings,
with the empty string standing for an absent/falsy value where the source
relies on JavaScript truthiness.
-/

/-! ### Character classes and helpers for the title regexes

The source parses titles with three JavaScript regexes (function
`extractSeriesInfo`).  We embed each regex as a decidable prefix-matching
predicate and reproduce the lazy `(.*?)` capture by scanning split points
left to right.
-/

/-- Whitespace as matched by the regex class `\s` (ASCII part, which is what
titles contain). -/
def isWS (c : Char) : Bool :=
  c = ' ' || c = '\t' || c = '\n' || c = '\r' || c = '\x0b' || c = '\x0c'

/-- Decimal digit, regex class `\d`. -/
def isDigitC (c : Char) : Bool :=
  '0' ≤ c && c ≤ '9'

/-- Roman-numeral letter, regex class `[IVXLCDM]` under the `i` flag. -/
def isRoman (c : Char) : Bool :=
  c.toLower = 'i' || c.toLower = 'v' || c.toLower = 'x' || c.toLower = 'l' ||
  c.toLower = 'c' || c.toLower = 'd' || c.toLower = 'm'

/-- Remainders of `l` after consuming a nonempty run of characters
satisfying `p` (one list per possible run length, so that existential
backtracking of `p+` is captured). -/
def runRemainders (p : Char → Bool) : List Char → List (List Char)
  | [] => []
  | c :: t => if p c then t :: runRemainders p t else []

/-- Remainders of `l` after consuming one separator, regex group
`(?:\s+|-|:)`: either a single dash, a single colon, or a nonempty run of
whitespace. -/
def sepRemainders (l : List Char) : List (List Char) :=
  match l with
  | [] => []
  | c :: t =>
      (if c = '-' || c = ':' then [t] else []) ++
      (if isWS c then t :: runRemainders isWS t else [])

/-- Whether `l` can begin with the tail group `(?:\s+|-|:|$)`: end of input
or any separator character. -/
def sepEndOk (l : List Char) : Bool :=
  match l with
  | [] => true
  | c :: _ => isWS c || c = '-' || c = ':'

/-- Remainders of `l` after consuming one of the literal keywords,
case-insensitively. -/
def keywordRemainders (kws : List (List Char)) (l : List Char) : List (List Char) :=
  kws.filterMap (fun kw =>
    if (l.take kw.length).map Char.toLower = kw then some (l.drop kw.length) else none)

/-- Remainders of `l` after consuming the numeral group `(?:\d+|[IVXLCDM]+)`
(case-insensitive). -/
def numRemainders (l : List Char) : List (List Char) :=
  runRemainders isDigitC l ++ runRemainders isRoman l

/-- Tail of regex 1, `(?:\s+|-|:)(?:\d+|[IVXLCDM]+)(?:\s+|-|:|$)`: does it
match a prefix of `l`? -/
def matchNumTail (l : List Char) : Bool :=
  (sepRemainders l).any (fun r1 => (numRemainders r1).any sepEndOk)

/-- Tail of regex 2,
`(?:\s+|-|:)(?:season|part|chapter)(?:\s+|-|:)(?:\d+|[IVXLCDM]+)(?:\s+|-|:|$)`. -/
def matchSeasonTail (l : List Char) : Bool :=
  (sepRemainders l).any (fun r1 =>
    (keywordRemainders ["season".toList, "part".toList, "chapter".toList] r1).any (fun r2 =>
      (sepRemainders r2).any (fun r3 => (numRemainders r3).any sepEndOk)))

/-- Tail of regex 3,
`(?:\s+|-|:)(?:the|a|an|origins|returns|rises|forever|begins)(?:\s+|-|:|$)`. -/
def matchFranchiseTail (l : List Char) : Bool :=
  (sepRemainders l).any (fun r1 =>
    (keywordRemainders
      ["the".toList, "a".toList, "an".toList, "origins".toList, "returns".toList,
       "rises".toList, "forever".toList, "begins".toList] r1).any sepEndOk)

/-- Lazy capture of `^(.*?)tail`: scan split points left to right and return
the shortest leading capture whose remainder satisfies `p` (the embedded
regex tail), or `none` when the regex does not match. -/
def firstMatchAux (p : List Char → Bool) (pre : List Char) (rest : List Char) :
    Option (List Char) :=
  if p rest then some pre
  else
    match rest with
    | [] => none
    | c :: rest' => firstMatchAux p (pre ++ [c]) rest'

/-- Capture group 1 of an anchored lazy regex `^(.*?)tail` against `s`. -/
def firstMatchPre (p : List Char → Bool) (s : List Char) : Option (List Char) :=
  firstMatchAux p [] s

/-- String.trim of the source, over character lists. -/
def trimWS (l : List Char) : List Char :=
  ((l.dropWhile isWS).reverse.dropWhile isWS).reverse

/-- First match of the unanchored regex `/\d+|[IVXLCDM]+/i`: at the leftmost
position holding a digit or roman letter, a digit run is preferred over a
roman run. -/
def firstNumRun : List Char → Option (List Char)
  | [] => none
  | c :: t =>
      if isDigitC c then some ((c :: t).takeWhile isDigitC)
      else if isRoman c then some ((c :: t).takeWhile isRoman)
      else firstNumRun t

/-- Result record of extractSeriesInfo. -/
structure SeriesInfo where
  seriesName : Option (List Char)
  seriesNumber : Option (List Char)
deriving DecidableEq

/-- Embedding of extractSeriesInfo: try the three patterns in order
(number, season, franchise marker), use the first match's trimmed capture as
the series name; if none matches, fall back to the whole title when it is
longer than 4 characters. -/
def extractSeriesInfo (title : List Char) : SeriesInfo :=
  let m1 := firstMatchPre matchNumTail title
  let m2 := firstMatchPre matchSeasonTail title
  let m3 := firstMatchPre matchFranchiseTail title
  let seriesName : Option (List Char) :=
    match m1 with
    | some pre => some (trimWS pre)
    | none =>
        match m2 with
        | some pre => some (trimWS pre)
        | none =>
            match m3 with
            | some pre => some (trimWS pre)
            | none => if 4 < title.length then some title else none
  { seriesName := seriesName, seriesNumber := firstNumRun title }

/-! ### Content documents and the metadata similarity scorer -/

/-- A content record as read from MongoDB, restricted to the fields the
engine touches.  Fields holding arrays of objects with a name attribute
(anime genres, demographics, themes, studios, production companies, actors,
networks) are modelled as lists of optional names; plain string arrays
(movie/tv/game genres, platforms, developers, publishers) as string lists.
An empty string or empty list stands for an absent/falsy field. -/
structure ContentDoc where
  _id : String
  title : List Char
  title_en : List Char
  title_original : List Char
  genres : List String
  genresO : List (Option String)
  demographics : List (Option String)
  themes : List (Option String)
  studios : List (Option String)
  production_companies : List (Option String)
  actors : List (Option String)
  networks : List (Option String)
  platforms : List String
  developers : List String
  publishers : List String
deriving DecidableEq

/-- A document with every field empty, used to build concrete test records. -/
def emptyDoc : ContentDoc :=
  { _id := "", title := [], title_en := [], title_original := [],
    genres := [], genresO := [], demographics := [], themes := [], studios := [],
    production_companies := [], actors := [], networks := [],
    platforms := [], developers := [], publishers := [] }

/-- Embedding of getFieldArrayValues with a name subfield:
map to the subfield and drop falsy (missing or empty) values. -/
def getFieldArrayValues (a : List (Option String)) : List String :=
  (a.filterMap id).filter (fun s => !(s == ""))

/-- Embedding of compareArrays: Jaccard similarity of the two arrays viewed
as sets, 0 when either side is empty. -/
def compareArrays (array1 array2 : List String) : ℚ :=
  if array1 = [] || array2 = [] then 0
  else
    let set1 := array1.dedup
    let set2 := array2.dedup
    let intersectionCount := (set1.filter (fun x => set2.contains x)).length
    let unionCount := set1.length + set2.length - intersectionCount
    if unionCount = 0 then 0 else (intersectionCount : ℚ) / (unionCount : ℚ)

/-- The type-specific weighted Jaccard contributions added by the switch of
calculateMetadataSimilarity (0 for an unknown content type, whose switch
falls through without adding anything). -/
def similarityContributions (content1 content2 : ContentDoc) (contentType : String) : ℚ :=
  (if contentType = "anime" then
      compareArrays (getFieldArrayValues content1.genresO) (getFieldArrayValues content2.genresO) * (15/100) +
      compareArrays (getFieldArrayValues content1.demographics) (getFieldArrayValues content2.demographics) * (15/100) +
      compareArrays (getFieldArrayValues content1.themes) (getFieldArrayValues content2.themes) * (10/100) +
      compareArrays (getFieldArrayValues content1.studios) (getFieldArrayValues content2.studios) * (10/100)
    else if contentType = "movie" then
      compareArrays content1.genres content2.genres * (20/100) +
      compareArrays (getFieldArrayValues content1.production_companies) (getFieldArrayValues content2.production_companies) * (10/100) +
      compareArrays ((getFieldArrayValues content1.actors).take 3) ((getFieldArrayValues content2.actors).take 3) * (20/100)
    else if contentType = "tvseries" then
      compareArrays content1.genres content2.genres * (20/100) +
      compareArrays (getFieldArrayValues content1.networks) (getFieldArrayValues content2.networks) * (15/100) +
      compareArrays (getFieldArrayValues content1.production_companies) (getFieldArrayValues content2.production_companies) * (5/100) +
      compareArrays ((getFieldArrayValues content1.actors).take 5) ((getFieldArrayValues content2.actors).take 5) * (10/100)
    else if contentType = "game" then
      compareArrays content1.genres content2.genres * (20/100) +
      compareArrays content1.platforms content2.platforms * (15/100) +
      compareArrays content1.developers content2.developers * (10/100) +
      compareArrays content1.publishers content2.publishers * (5/100)
    else 0)

/-- Embedding of calculateMetadataSimilarity: base 0.5 plus the type-specific
weighted Jaccard contributions, capped at 0.99 (the cap is Math.min). -/
def calculateMetadataSimilarity (content1 content2 : ContentDoc) (contentType : String) : ℚ :=
  let score : ℚ := (1/2) + similarityContributions content1 content2 contentType
  if (99/100 : ℚ) ≤ score then 99/100 else score

/-- The pairs of attribute arrays that calculateMetadataSimilarity compares
for a given content type, in source order (including the actor-list slices). -/
def comparedPairs (content1 content2 : ContentDoc) (contentType : String) :
    List (List String × List String) :=
  if contentType = "anime" then
    [(getFieldArrayValues content1.genresO, getFieldArrayValues content2.genresO),
     (getFieldArrayValues content1.demographics, getFieldArrayValues content2.demographics),
     (getFieldArrayValues content1.themes, getFieldArrayValues content2.themes),
     (getFieldArrayValues content1.studios, getFieldArrayValues content2.studios)]
  else if contentType = "movie" then
    [(content1.genres, content2.genres),
     (getFieldArrayValues content1.production_companies, getFieldArrayValues content2.production_companies),
     ((getFieldArrayValues content1.actors).take 3, (getFieldArrayValues content2.actors).take 3)]
  else if contentType = "tvseries" then
    [(content1.genres, content2.genres),
     (getFieldArrayValues content1.networks, getFieldArrayValues content2.networks),
     (getFieldArrayValues content1.production_companies, getFieldArrayValues content2.production_companies),
     ((getFieldArrayValues content1.actors).take 5, (getFieldArrayValues content2.actors).take 5)]
  else if contentType = "game" then
    [(content1.genres, content2.genres),
     (content1.platforms, content2.platforms),
     (content1.developers, content2.developers),
     (content1.publishers, content2.publishers)]
  else []

/-! ### Errors, collection names, and the by-id recommender -/

/-- JavaScript exceptions that the embedded code can raise. -/
inductive JsErr where
  | referenceError
  | typeError
  | error (msg : String)
deriving DecidableEq

/-- Embedding of getCollectionName: map a content type tag to its MongoDB
collection name, raising on an unknown tag. -/
def getCollectionName : String → Except JsErr String
  | "movie" => .ok "movies"
  | "tvseries" => .ok "tv-series"
  | "anime" => .ok "animes"
  | "game" => .ok "games"
  | t => .error (.error ("Unknown content type: " ++ t))

/-- One Pinecone match: id, similarity score, and the metadata type tag
(empty string when the metadata carries no type). -/
structure MatchRec where
  id : String
  score : ℚ
  mtype : String
deriving DecidableEq

/-- A recommendation candidate as assembled by the source: id, score, type
tag, and the hydrated MongoDB document. -/
structure Candidate where
  id : String
  score : ℚ
  type : String
  data : ContentDoc
deriving DecidableEq

/-- Embedding of recommendById over a vector-index oracle `vq` (query by id
and requested size, possibly raising) and a MongoDB oracle `mf` (fetch by id
and type, absent documents and fetch errors both collapse to none, as
fetchFromMongoDB catches its own errors).  The source requests topK + 1
matches, filters out the queried item itself, truncates to topK, then
hydrates each remaining match, dropping matches without a metadata type and
matches whose document cannot be fetched; any query error yields the empty
list via the catch-all. -/
def recommendById (vq : String → Nat → Except JsErr (List MatchRec))
    (mf : String → String → Option ContentDoc) (itemId : String) (topK : Nat) :
    List Candidate :=
  match vq itemId (topK + 1) with
  | .error _ => []
  | .ok ms =>
      let filteredMatches := (ms.filter (fun m => !(m.id == itemId))).take topK
      filteredMatches.filterMap (fun m =>
        if m.mtype == "" then none
        else (mf m.id m.mtype).map (fun doc =>
          { id := m.id, score := m.score, type := m.mtype, data := doc }))

/-! ### Sequel and series detection -/

/-- Lower-case a character list. -/
def toLowerList (l : List Char) : List Char := l.map Char.toLower

/-- Whether pat occurs as a contiguous substring of s. -/
def isSubstringOf (pat s : List Char) : Bool :=
  (List.range (s.length + 1)).any (fun i => (s.drop i).take pat.length == pat)

/-- Case-insensitive substring containment; this is what the escaped
`$regex ... $options i` query in findSequelsAndSeries denotes (escapeRegex
makes the series name a literal pattern). -/
def containsCI (pat s : List Char) : Bool :=
  isSubstringOf (toLowerList pat) (toLowerList s)

/-- The `title || title_en || title_original || ''` chain of the source. -/
def firstTitle (d : ContentDoc) : List Char :=
  if d.title ≠ [] then d.title
  else if d.title_en ≠ [] then d.title_en
  else d.title_original

/-- Whether a stored document matches the series-name query: the name occurs
case-insensitively in any of the three title fields. -/
def titleMatchesName (sn : List Char) (d : ContentDoc) : Bool :=
  containsCI sn d.title || containsCI sn d.title_en || containsCI sn d.title_original

/-- Inner accumulation loop of findSequelsAndSeries: push scored candidates
in order; after each push, stop as soon as the accumulated recommendation
list has reached length 3 (the source checks the length of the whole
accumulated list, not a per-item counter). -/
def innerPush (contentType : String) : List (ContentDoc × ℚ) → List Candidate → List Candidate
  | [], acc => acc
  | (d, s) :: rest, acc =>
      let acc' := acc ++ [{ id := d._id, score := s, type := contentType, data := d }]
      if 3 ≤ acc'.length then acc' else innerPush contentType rest acc'

/-- Processing of one consumed item inside findSequelsAndSeries: derive a
series name from the title, query up to 5 same-collection documents whose
titles contain it (excluding the item itself), drop already-consumed ids,
score by metadata similarity, sort descending (stably, as the JS runtime
sorts), and push via the capped inner loop. -/
def processItem (db : String → List ContentDoc) (collName : String) (contentType : String)
    (userContentSet : List String) (content : ContentDoc) (recommendations : List Candidate) :
    List Candidate :=
  let title := firstTitle content
  if title = [] then recommendations
  else
    match (extractSeriesInfo title).seriesName with
    | none => recommendations
    | some sn =>
        if sn = [] then recommendations
        else
          let potentialSeriesContent :=
            ((db collName).filter (fun d => titleMatchesName sn d && !(d._id == content._id))).take 5
          let filteredSeriesContent :=
            potentialSeriesContent.filter (fun d => !(d._id == "") && !(userContentSet.contains d._id))
          if filteredSeriesContent = [] then recommendations
          else
            let scoredContent :=
              filteredSeriesContent.map (fun d => (d, calculateMetadataSimilarity content d contentType))
            let sorted := scoredContent.mergeSort (fun a b => decide (b.2 ≤ a.2))
            innerPush contentType sorted recommendations

/-- Outer loop of findSequelsAndSeries over the consumed items: process each
item, stopping before the next item once 10 or more recommendations have
accumulated. -/
def sequelLoop (db : String → List ContentDoc) (collName : String) (contentType : String)
    (userContentSet : List String) : List ContentDoc → List Candidate → List Candidate
  | [], acc => acc
  | content :: rest, acc =>
      let acc' := processItem db collName contentType userContentSet content acc
      if 10 ≤ acc'.length then acc'
      else sequelLoop db collName contentType userContentSet rest acc'

/-- Embedding of findSequelsAndSeries: empty input yields no candidates; an
unknown content type raises inside the try block and the catch returns the
(empty) list gathered so far; otherwise run the capped loop. -/
def findSequelsAndSeries (db : String → List ContentDoc) (contentData : List ContentDoc)
    (contentType : String) (userContentSet : List String) : List Candidate :=
  if contentData = [] then []
  else
    match getCollectionName contentType with
    | .error _ => []
    | .ok collName => sequelLoop db collName contentType userContentSet contentData []

/-! ### Per-type aggregation -/

/-- Body of the try block of getRecommendationsByType.  The id-extraction
step `item._id?.toString() || item.id?.toString()` over the first three
consumed items is modelled by the oracle its, which may raise (toString is
dynamically dispatched); this is the only step of the block whose failure is
not already caught by an inner handler. -/
def recsTryBody (db : String → List ContentDoc)
    (vq : String → Nat → Except JsErr (List MatchRec))
    (mf : String → String → Option ContentDoc)
    (its : ContentDoc → Except JsErr (Option String))
    (contentData : List ContentDoc) (contentType : String) (perTypeCount : Nat)
    (userContentSet : List String) : Except JsErr (List Candidate) :=
  let sequelRecs := findSequelsAndSeries db contentData contentType userContentSet
  if perTypeCount ≤ sequelRecs.length then .ok (sequelRecs.take perTypeCount)
  else
    let remainingCount := perTypeCount - sequelRecs.length
    match (contentData.take 3).mapM its with
    | .error e => .error e
    | .ok sampleIds =>
        let validSampleIds := (sampleIds.filterMap id).filter (fun s => !(s == ""))
        if validSampleIds = [] then .ok sequelRecs
        else
          let fetchK := ((remainingCount + validSampleIds.length - 1) / validSampleIds.length) * 2
          let similarityRecs :=
            (((validSampleIds.map (fun i => recommendById vq mf i fetchK)).flatten).filter
              (fun r =>
                !(r.type == "") && !(r.id == "") && r.type == contentType &&
                !(userContentSet.contains r.id) &&
                sequelRecs.all (fun sr => !(sr.id == r.id)))).take remainingCount
          .ok (sequelRecs ++ similarityRecs)

/-- Embedding of getRecommendationsByType.  The catch clause of the source
reads `return sequelRecs || []`, but sequelRecs is a const bound inside the
try block and is not in scope in the catch clause, so evaluating the clause
raises a ReferenceError; the embedding therefore maps every error of the try
body to JsErr.referenceError instead of recovering. -/
def getRecommendationsByType (db : String → List ContentDoc)
    (vq : String → Nat → Except JsErr (List MatchRec))
    (mf : String → String → Option ContentDoc)
    (its : ContentDoc → Except JsErr (Option String))
    (contentData : List ContentDoc) (contentType : String) (perTypeCount : Nat)
    (userContentSet : List String) : Except JsErr (List Candidate) :=
  if contentData = [] then .ok []
  else
    match recsTryBody db vq mf its contentData contentType perTypeCount userContentSet with
    | .ok r => .ok r
    | .error _ => .error .referenceError

/-! ### User profile resolution and the orchestrator -/

/-- The joined user lists returned by getUserContentLists, reduced to the id
fields the extraction step reads.  A movie/anime/game entry is its id (empty
string for a falsy id); a tv entry carries the pair
(tvseries_id, tv_id) read by the `tvseries_id || tv_id` chain.  An absent
sub-list is the empty list. -/
structure UserLists where
  movie_watch_lists : List String
  tvseries_watch_lists : List (String × String)
  anime_lists : List String
  game_lists : List String
deriving DecidableEq

/-- Movie ids of extractUserContent: keep truthy movie_id values. -/
def movieIds (ul : UserLists) : List String :=
  ul.movie_watch_lists.filter (fun i => !(i == ""))

/-- Tv ids of extractUserContent: keep entries where tvseries_id or tv_id is
truthy and map each to `tvseries_id || tv_id`. -/
def tvIds (ul : UserLists) : List String :=
  (ul.tvseries_watch_lists.filter (fun p => !(p.1 == "") || !(p.2 == ""))).map
    (fun p => if p.1 == "" then p.2 else p.1)

/-- Anime ids of extractUserContent. -/
def animeIds (ul : UserLists) : List String :=
  ul.anime_lists.filter (fun i => !(i == ""))

/-- Game ids of extractUserContent. -/
def gameIds (ul : UserLists) : List String :=
  ul.game_lists.filter (fun i => !(i == ""))

/-- The consumed-id set built in recommendForUser:
`new Set(ids.filter(Boolean))`, modelled as the truthy-filtered id list. -/
def userSetOf (ids : List String) : List String :=
  ids.filter (fun i => !(i == ""))

/-- Embedding of fetchContentDetails: look up the documents for the given
ids in the collection for the content type (a MongoDB find returns each
matching document once, in collection order).  Empty input, entirely falsy
ids and unknown content types (the latter raising inside the caught try
block) all yield the empty list. -/
def fetchContentDetails (db : String → List ContentDoc) (ids : List String)
    (contentType : String) : List ContentDoc :=
  if ids = [] then []
  else
    match getCollectionName contentType with
    | .error _ => []
    | .ok collName =>
        let validIds := ids.filter (fun i => !(i == ""))
        if validIds = [] then []
        else (db collName).filter (fun d => validIds.contains d._id)

/-- The external world of the recommendation path: MongoDB collections, the
vector index, the by-id document fetch, the joined user lists (none models
both a missing user and a lookup error, which getUserContentLists catches
into null), and the id-extraction step of getRecommendationsByType. -/
structure Env where
  collections : String → List ContentDoc
  vectorQuery : String → Nat → Except JsErr (List MatchRec)
  mongoFetch : String → String → Option ContentDoc
  userLists : String → Option UserLists
  idToString : ContentDoc → Except JsErr (Option String)

/-- Result of recommendForUser: either one of the early empty returns or the
four per-type buckets (the source also returns their concatenation in
profile order as the all field). -/
inductive RecOutcome where
  | empty
  | result (movies tvSeries animes games : List Candidate)
deriving DecidableEq

/-- Movie bucket of an outcome (empty outcomes carry no candidates). -/
def moviesBucket : RecOutcome → List Candidate
  | .empty => []
  | .result m _ _ _ => m

/-- Tv-series bucket of an outcome. -/
def tvBucket : RecOutcome → List Candidate
  | .empty => []
  | .result _ tv _ _ => tv

/-- Anime bucket of an outcome. -/
def animesBucket : RecOutcome → List Candidate
  | .empty => []
  | .result _ _ an _ => an

/-- Game bucket of an outcome. -/
def gamesBucket : RecOutcome → List Candidate
  | .empty => []
  | .result _ _ _ g => g

/-- Collapse a per-type aggregation to a bucket: the inline
`.catch(err => [])` attached to each getRecommendationsByType promise. -/
def recsOrEmpty : Except JsErr (List Candidate) → List Candidate
  | .ok r => r
  | .error _ => []

/-- One per-type slot of the recommendation fan-out: run the aggregation
when the user consumed anything of this type (otherwise the slot is the
literal empty array) and degrade a raised aggregation error to an empty
bucket. -/
def bucketFor (env : Env) (details : List ContentDoc) (contentType : String) (k : Nat)
    (us : List String) : List Candidate :=
  if 0 < details.length then
    recsOrEmpty (getRecommendationsByType env.collections env.vectorQuery env.mongoFetch
      env.idToString details contentType k us)
  else []

/-- Main body of recommendForUser once a user-lists document was found:
extract ids and details, return empty when nothing was consumed, otherwise
aggregate the four types and return empty when every bucket came back
empty. -/
def recommendForUserCore (env : Env) (topK : Nat) (ul : UserLists) : RecOutcome :=
  let movieDetails := fetchContentDetails env.collections (movieIds ul) "movie"
  let tvSeriesDetails := fetchContentDetails env.collections (tvIds ul) "tvseries"
  let animeDetails := fetchContentDetails env.collections (animeIds ul) "anime"
  let gameDetails := fetchContentDetails env.collections (gameIds ul) "game"
  let totalContent := movieDetails.length + tvSeriesDetails.length +
    animeDetails.length + gameDetails.length
  if totalContent = 0 then .empty
  else
    let perTypeCount := topK
    let movieRecs := bucketFor env movieDetails "movie" perTypeCount (userSetOf (movieIds ul))
    let tvRecs := bucketFor env tvSeriesDetails "tvseries" perTypeCount (userSetOf (tvIds ul))
    let animeRecs := bucketFor env animeDetails "anime" perTypeCount (userSetOf (animeIds ul))
    let gameRecs := bucketFor env gameDetails "game" perTypeCount (userSetOf (gameIds ul))
    let totalRecommendations := movieRecs.length + tvRecs.length +
      animeRecs.length + gameRecs.length
    if totalRecommendations = 0 then .empty
    else .result movieRecs tvRecs animeRecs gameRecs

/-- Embedding of recommendForUser: empty user-id list and missing profile
return the empty outcome; otherwise only the first user id is honored.  The
outer try/catch of the source maps any escaped error to the empty array; in
this embedding every fallible step is already caught (the per-type catch
handlers make the body total), so the body is returned directly. -/
def recommendForUser (env : Env) (userIds : List String) (topK : Nat) : RecOutcome :=
  match userIds with
  | [] => .empty
  | userId :: _ =>
      match env.userLists userId with
      | none => .empty
      | some ul => recommendForUserCore env topK ul

/-! ### Ingestion: retry helper -/

/-- Outcome of one attempt of the function passed to withRetry, classified
the way the catch clause classifies errors: an OpenAI rate-limit rejection
(status 429 of type requests), a message containing a timeout marker, or any
other error. -/
inductive AttemptOutcome (α : Type) where
  | success (a : α)
  | rateLimit
  | timeout
  | other
deriving DecidableEq

/-- Error raised by withRetry: either the generic failed-after-N error
thrown after the loop, or the last attempt's own error rethrown. -/
inductive RetryErr where
  | exhausted
  | original
deriving DecidableEq

/-- Back-off before the retry that follows attempt number `attempt`:
`initialWaitTime * 1.5 ^ (attempt - 1)` milliseconds. -/
def waitTime (initialWaitTime : ℚ) (attempt : Nat) : ℚ :=
  initialWaitTime * (3/2) ^ (attempt - 1)

/-- Embedding of the attempt loop of withRetry.  remaining counts the loop
iterations still allowed (maxRetries + 1 - attempt at the entry point); the
returned list logs every sleep in order.  A rate-limit or timeout failure
always sleeps and continues (even on the final attempt, after which the
exhausted error is raised); any other failure sleeps and continues only
while attempt < maxRetries and otherwise rethrows immediately. -/
def withRetryGo (fn : Nat → AttemptOutcome α) (maxRetries : Nat) (w : ℚ) :
    Nat → Nat → Except RetryErr α × List ℚ
  | _, 0 => (.error .exhausted, [])
  | attempt, r + 1 =>
      match fn attempt with
      | .success a => (.ok a, [])
      | .rateLimit =>
          let next := withRetryGo fn maxRetries w (attempt + 1) r
          (next.1, waitTime w attempt :: next.2)
      | .timeout =>
          let next := withRetryGo fn maxRetries w (attempt + 1) r
          (next.1, waitTime w attempt :: next.2)
      | .other =>
          if attempt < maxRetries then
            let next := withRetryGo fn maxRetries w (attempt + 1) r
            (next.1, waitTime w attempt :: next.2)
          else (.error .original, [])

/-- Embedding of withRetry: run attempts 1..maxRetries. -/
def withRetry (fn : Nat → AttemptOutcome α) (maxRetries : Nat) (initialWaitTime : ℚ) :
    Except RetryErr α × List ℚ :=
  withRetryGo fn maxRetries initialWaitTime 1 maxRetries

/-! ### Ingestion: batch loop -/

/-- Loop state of ingestCollection: cursor position, consecutive-failure
counter, and ids ingested so far.  The documents of the collection are
modelled by their ids. -/
structure IngestState where
  processed : Nat
  failedAttempts : Nat
  ingested : List String
deriving DecidableEq

/-- The batch the cursor currently points at:
`find().skip(processed).limit(50)`. -/
def currentBatch (docs : List String) (st : IngestState) : List String :=
  (docs.drop st.processed).take 50

/-- One iteration of the while loop of ingestCollection (batch fetch
modelled as the pure slice above; ok tells whether processBatch succeeded
this iteration).  none means the loop observed an empty batch and stops.  On
success the batch is ingested and the failure counter resets; on the fifth
consecutive failure the batch is skipped - counted as processed without
being ingested - and the counter resets; otherwise only the counter grows. -/
def ingestStep (docs : List String) (ok : Bool) (st : IngestState) : Option IngestState :=
  let batch := currentBatch docs st
  if batch = [] then none
  else if ok then
    some { processed := st.processed + batch.length, failedAttempts := 0,
           ingested := st.ingested ++ batch }
  else if 5 ≤ st.failedAttempts + 1 then
    some { processed := st.processed + batch.length, failedAttempts := 0,
           ingested := st.ingested }
  else
    some { processed := st.processed, failedAttempts := st.failedAttempts + 1,
           ingested := st.ingested }

/-- Fuelled while loop of ingestCollection; outcome gives the success of
processBatch at each iteration index. -/
def ingestLoop (docs : List String) (outcome : Nat → Bool) :
    Nat → Nat → IngestState → IngestState
  | 0, _, st => st
  | fuel + 1, iter, st =>
      match ingestStep docs (outcome iter) st with
      | none => st
      | some st' => ingestLoop docs outcome fuel (iter + 1) st'

/-- Embedding of ingestCollection for one collection: run the loop from the
initial state with enough fuel for every batch to be processed or skipped
(each batch advances after at most 5 iterations, and a batch holds at least
one document). -/
def ingestCollection (docs : List String) (outcome : Nat → Bool) : IngestState :=
  ingestLoop docs outcome (5 * docs.length + 5) 0
    { processed := 0, failedAttempts := 0, ingested := [] }

/-! ### Concrete environments used for witnesses and counterexamples -/

/-- Build a document holding only an id and a primary title. -/
def mkDoc (i : String) (t : String) : ContentDoc :=
  { emptyDoc with _id := i, title := t.toList }

/-- User lists holding only a movie list. -/
def ulRocky : UserLists :=
  { movie_watch_lists := ["m2", "m3"], tvseries_watch_lists := [],
    anime_lists := [], game_lists := [] }

/-- Movies collection of the Rocky scenario: the user consumed Rocky 2 and
Rocky 3; Rocky 4 and Rocky 5 are unconsumed. -/
def rockyMovies : List ContentDoc :=
  [mkDoc "m2" "Rocky 2", mkDoc "m3" "Rocky 3", mkDoc "m4" "Rocky 4", mkDoc "m5" "Rocky 5"]

/-- Environment of the Rocky scenario. -/
def envRocky : Env :=
  { collections := fun c => if c = "movies" then rockyMovies else [],
    vectorQuery := fun _ _ => .ok [],
    mongoFetch := fun _ _ => none,
    userLists := fun u => if u = "u" then some ulRocky else none,
    idToString := fun d => .ok (some d._id) }

/-- Unconsumed saga documents (they all contain the series name Saga). -/
def sagaFresh : List ContentDoc :=
  [mkDoc "x1" "Saga A", mkDoc "x2" "Saga B", mkDoc "x3" "Saga C",
   mkDoc "x4" "Saga D", mkDoc "x5" "Saga E"]

/-- Consumed saga documents, numbered so the number pattern extracts Saga. -/
def sagaConsumed : List ContentDoc :=
  [mkDoc "c1" "Saga 1", mkDoc "c2" "Saga 2", mkDoc "c3" "Saga 3",
   mkDoc "c4" "Saga 4", mkDoc "c5" "Saga 5", mkDoc "c6" "Saga 6",
   mkDoc "c7" "Saga 7", mkDoc "c8" "Saga 8", mkDoc "c9" "Saga 9"]

/-- Movies collection of the saga scenario; the unconsumed documents come
first in collection order. -/
def sagaDb : String → List ContentDoc :=
  fun c => if c = "movies" then sagaFresh ++ sagaConsumed else []

/-- Consumed ids of the saga scenario. -/
def sagaSet : List String :=
  ["c1", "c2", "c3", "c4", "c5", "c6", "c7", "c8", "c9"]

/-- Vector-index oracle of scenario B: six matches, including the queried
item X itself. -/
def vqScenB : String → Nat → Except JsErr (List MatchRec) :=
  fun _ _ => .ok
    [{ id := "X", score := 1, mtype := "movie" },
     { id := "r1", score := 9/10, mtype := "movie" },
     { id := "r2", score := 8/10, mtype := "movie" },
     { id := "r3", score := 7/10, mtype := "movie" },
     { id := "r4", score := 6/10, mtype := "movie" },
     { id := "r5", score := 5/10, mtype := "movie" }]

/-- MongoDB oracle of scenario B: every id resolves to a bare document. -/
def mfScenB : String → String → Option ContentDoc :=
  fun i _ => some (mkDoc i "")

/-- Environment whose user-lists lookup finds no user. -/
def envNoUser : Env :=
  { collections := fun _ => [],
    vectorQuery := fun _ _ => .ok [],
    mongoFetch := fun _ _ => none,
    userLists := fun _ => none,
    idToString := fun d => .ok (some d._id) }

/-- Environment of the C10 scenario: one consumed movie with a title that
yields no sequels, and an id-extraction step that raises. -/
def envThrowing : Env :=
  { collections := fun _ => [],
    vectorQuery := fun _ _ => .ok [],
    mongoFetch := fun _ _ => none,
    userLists := fun u => if u = "u" then some
      { movie_watch_lists := ["hw"], tvseries_watch_lists := [],
        anime_lists := [], game_lists := [] } else none,
    idToString := fun _ => .error .typeError }

/-- Decidable equality for Except values, used to evaluate embedded runs. -/
instance {e a : Type} [DecidableEq e] [DecidableEq a] : DecidableEq (Except e a) := fun x y =>
  match x, y with
  | .ok v, .ok w =>
      if h : v = w then isTrue (by rw [h]) else isFalse (fun hh => h (Except.ok.inj hh))
  | .ok _, .error _ => isFalse (fun hh => Except.noConfusion hh)
  | .error _, .ok _ => isFalse (fun hh => Except.noConfusion hh)
  | .error v, .error w =>
      if h : v = w then isTrue (by rw [h]) else isFalse (fun hh => h (Except.error.inj hh))

/-- The consumed document of the C10 scenario. -/
def docHW : ContentDoc := mkDoc "hw" "Hello World"

/-- A bucket is sound for quota k and consumed set us when it holds at most
k candidates and none of their ids is consumed. -/
def bucketOK (k : Nat) (us : List String) (l : List Candidate) : Prop :=
  l.length ≤ k ∧ ∀ c ∈ l, us.contains c.id = false

/-! ### Helper lemmas about the sequel-detection loops -/

theorem innerPush_length (ct : String) (l : List (ContentDoc × ℚ)) (acc : List Candidate) :
    (innerPush ct l acc).length ≤ acc.length + 1 ∨ (innerPush ct l acc).length ≤ 3 := by
  induction l generalizing acc with
  | nil => left; simp [innerPush]
  | cons hd tl ih =>
      obtain ⟨d, s⟩ := hd
      simp only [innerPush]
      split
      · left; simp
      · rename_i hlt
        rcases ih (acc ++ [{ id := d._id, score := s, type := ct, data := d }]) with h | h
        · right
          simp at h hlt
          omega
        · right; exact h

theorem processItem_length (db : String → List ContentDoc) (coll ct : String)
    (us : List String) (d : ContentDoc) (acc : List Candidate) :
    (processItem db coll ct us d acc).length ≤ acc.length + 1 ∨
    (processItem db coll ct us d acc).length ≤ 3 := by
  simp only [processItem]
  split
  · left; omega
  · split
    · left; omega
    · split
      · left; omega
      · split
        · left; omega
        · exact innerPush_length ct _ acc

theorem sequelLoop_le10 (db : String → List ContentDoc) (coll ct : String)
    (us : List String) (docs : List ContentDoc) (acc : List Candidate)
    (hacc : acc.length < 10) :
    (sequelLoop db coll ct us docs acc).length ≤ 10 := by
  induction docs generalizing acc with
  | nil => simp only [sequelLoop]; omega
  | cons d rest ih =>
      simp only [sequelLoop]
      have hb := processItem_length db coll ct us d acc
      split
      · omega
      · rename_i hlt
        exact ih _ (by omega)

theorem findSequels_le10 (db : String → List ContentDoc) (cd : List ContentDoc)
    (ct : String) (us : List String) :
    (findSequelsAndSeries db cd ct us).length ≤ 10 := by
  unfold findSequelsAndSeries
  split
  · decide
  · split
    · decide
    · exact sequelLoop_le10 _ _ _ _ _ _ (by decide)

theorem sequelLoop_stop (db : String → List ContentDoc) (coll ct : String)
    (us : List String) (docs rest : List ContentDoc) (acc : List Candidate)
    (hacc : acc.length < 10)
    (h : 10 ≤ (sequelLoop db coll ct us docs acc).length) :
    sequelLoop db coll ct us (docs ++ rest) acc = sequelLoop db coll ct us docs acc := by
  induction docs generalizing acc with
  | nil => simp only [sequelLoop] at h; omega
  | cons d ds ih =>
      simp only [sequelLoop, List.cons_append] at h ⊢
      split
      · rfl
      · rename_i hlt
        rw [if_neg hlt] at h
        exact ih _ (by omega) h

theorem innerPush_forall {P : Candidate → Prop} (ct : String)
    (l : List (ContentDoc × ℚ)) (acc : List Candidate)
    (hacc : ∀ c ∈ acc, P c)
    (hl : ∀ ds ∈ l, P { id := ds.1._id, score := ds.2, type := ct, data := ds.1 }) :
    ∀ c ∈ innerPush ct l acc, P c := by
  induction l generalizing acc with
  | nil => exact hacc
  | cons hd tl ih =>
      obtain ⟨d, s⟩ := hd
      simp only [innerPush]
      have hacc' : ∀ c ∈ acc ++ [{ id := d._id, score := s, type := ct, data := d }], P c := by
        intro c hc
        rcases List.mem_append.mp hc with hc | hc
        · exact hacc c hc
        · rcases List.mem_singleton.mp hc with rfl
          exact hl (d, s) (by simp)
      split
      · exact hacc'
      · exact ih _ hacc' (fun ds hds => hl ds (List.mem_cons_of_mem _ hds))

theorem processItem_forall (db : String → List ContentDoc) (coll ct : String)
    (us : List String) (d : ContentDoc) (acc : List Candidate)
    (hacc : ∀ c ∈ acc, us.contains c.id = false) :
    ∀ c ∈ processItem db coll ct us d acc, us.contains c.id = false := by
  simp only [processItem]
  split
  · exact hacc
  · split
    · exact hacc
    · rename_i sn hsn
      split
      · exact hacc
      · split
        · exact hacc
        · apply innerPush_forall ct _ acc hacc
          intro ds hds
          have hmem : ds ∈ (List.filter
              (fun d => !d._id == "" && !us.contains d._id)
              (List.take 5 (List.filter (fun d_1 => titleMatchesName sn d_1 && !d_1._id == d._id)
                (db coll)))).map
              (fun d_1 => (d_1, calculateMetadataSimilarity d d_1 ct)) := by
            exact List.mem_mergeSort.mp hds
          rcases List.mem_map.mp hmem with ⟨d', hd', rfl⟩
          have := List.of_mem_filter hd'
          simp only [Bool.and_eq_true, Bool.not_eq_true'] at this
          exact this.2

theorem sequelLoop_forall (db : String → List ContentDoc) (coll ct : String)
    (us : List String) (docs : List ContentDoc) (acc : List Candidate)
    (hacc : ∀ c ∈ acc, us.contains c.id = false) :
    ∀ c ∈ sequelLoop db coll ct us docs acc, us.contains c.id = false := by
  induction docs generalizing acc with
  | nil => exact hacc
  | cons d rest ih =>
      simp only [sequelLoop]
      have h1 := processItem_forall db coll ct us d acc hacc
      split
      · exact h1
      · exact ih _ h1

theorem findSequels_forall (db : String → List ContentDoc) (cd : List ContentDoc)
    (ct : String) (us : List String) :
    ∀ c ∈ findSequelsAndSeries db cd ct us, us.contains c.id = false := by
  unfold findSequelsAndSeries
  split
  · simp
  · split
    · simp
    · exact sequelLoop_forall _ _ _ _ _ _ (by simp)

theorem recsTryBody_ok_props (db : String → List ContentDoc)
    (vq : String → Nat → Except JsErr (List MatchRec))
    (mf : String → String → Option ContentDoc)
    (its : ContentDoc → Except JsErr (Option String))
    (cd : List ContentDoc) (ct : String) (k : Nat) (us : List String)
    (l : List Candidate)
    (h : recsTryBody db vq mf its cd ct k us = .ok l) :
    l.length ≤ k ∧ ∀ c ∈ l, us.contains c.id = false := by
  simp only [recsTryBody] at h
  split at h
  · rename_i hk
    rcases Except.ok.inj h with rfl
    constructor
    · exact List.length_take_le _ _
    · intro c hc
      exact findSequels_forall db cd ct us c (List.take_subset _ _ hc)
  · rename_i hk
    split at h
    · exact absurd h (by simp)
    · split at h
      · rcases Except.ok.inj h with rfl
        constructor
        · omega
        · intro c hc
          exact findSequels_forall db cd ct us c hc
      · rcases Except.ok.inj h with rfl
        constructor
        · rw [List.length_append]
          refine le_trans (Nat.add_le_add_left (List.length_take_le _ _) _) ?_
          omega
        · intro c hc
          rcases List.mem_append.mp hc with hc | hc
          · exact findSequels_forall db cd ct us c hc
          · have hc' := List.mem_of_mem_take hc
            have hf := List.of_mem_filter hc'
            simp only [Bool.and_eq_true, Bool.not_eq_true'] at hf
            exact hf.1.2

theorem getRecs_ok_props (db : String → List ContentDoc)
    (vq : String → Nat → Except JsErr (List MatchRec))
    (mf : String → String → Option ContentDoc)
    (its : ContentDoc → Except JsErr (Option String))
    (cd : List ContentDoc) (ct : String) (k : Nat) (us : List String)
    (l : List Candidate)
    (h : getRecommendationsByType db vq mf its cd ct k us = .ok l) :
    l.length ≤ k ∧ ∀ c ∈ l, us.contains c.id = false := by
  simp only [getRecommendationsByType] at h
  split at h
  · rcases Except.ok.inj h with rfl
    exact ⟨Nat.zero_le _, by simp⟩
  · split at h
    · rename_i l' h'
      rcases Except.ok.inj h with rfl
      exact recsTryBody_ok_props db vq mf its cd ct k us l' h'
    · exact absurd h (by simp)

theorem bucketFor_props (env : Env) (details : List ContentDoc) (ct : String)
    (k : Nat) (us : List String) :
    bucketOK k us (bucketFor env details ct k us) := by
  unfold bucketFor
  split
  · unfold recsOrEmpty
    split
    · rename_i l h
      exact getRecs_ok_props _ _ _ _ _ _ _ _ _ h
    · exact ⟨Nat.zero_le _, by simp⟩
  · exact ⟨Nat.zero_le _, by simp⟩

theorem core_buckets (env : Env) (k : Nat) (ul : UserLists) :
    (moviesBucket (recommendForUserCore env k ul) = [] ∨
      moviesBucket (recommendForUserCore env k ul) =
        bucketFor env (fetchContentDetails env.collections (movieIds ul) "movie") "movie" k
          (userSetOf (movieIds ul))) ∧
    (tvBucket (recommendForUserCore env k ul) = [] ∨
      tvBucket (recommendForUserCore env k ul) =
        bucketFor env (fetchContentDetails env.collections (tvIds ul) "tvseries") "tvseries" k
          (userSetOf (tvIds ul))) ∧
    (animesBucket (recommendForUserCore env k ul) = [] ∨
      animesBucket (recommendForUserCore env k ul) =
        bucketFor env (fetchContentDetails env.collections (animeIds ul) "anime") "anime" k
          (userSetOf (animeIds ul))) ∧
    (gamesBucket (recommendForUserCore env k ul) = [] ∨
      gamesBucket (recommendForUserCore env k ul) =
        bucketFor env (fetchContentDetails env.collections (gameIds ul) "game") "game" k
          (userSetOf (gameIds ul))) := by
  simp only [recommendForUserCore]
  split
  · simp [moviesBucket, tvBucket, animesBucket, gamesBucket]
  · split
    · simp [moviesBucket, tvBucket, animesBucket, gamesBucket]
    · simp [moviesBucket, tvBucket, animesBucket, gamesBucket]

/-- Claim C1 does not hold as stated: in the Rocky scenario the user
consumed Rocky 2 and Rocky 3, both of which surface Rocky 4 as a sequel
candidate, and the movie bucket returned by recommendForUser contains the id
m4 twice - nothing deduplicates sequel candidates arising from different
consumed items. -/
theorem c1_bucket_duplicate :
    ¬ ((moviesBucket (recommendForUser envRocky ["u"] 3)).map Candidate.id).Nodup := by
  have h : (moviesBucket (recommendForUser envRocky ["u"] 3)).map Candidate.id
      = ["m4", "m5", "m4"] := by with_unfolding_all decide
  rw [h]
  decide

/-- Claim C1, amended: for every RecommendationResult returned by
recommendForUser, each per-type bucket holds at most the requested topK
candidates and none of their ids lies in that user's consumed-id set for
that type.  (The no-duplicates part of the original claim is dropped: the
code does not deduplicate within a bucket, see c1_bucket_duplicate.) -/
theorem c1_bucket_invariants (env : Env) (uid : String) (rest : List String)
    (k : Nat) (ul : UserLists) (h : env.userLists uid = some ul) :
    bucketOK k (userSetOf (movieIds ul)) (moviesBucket (recommendForUser env (uid :: rest) k)) ∧
    bucketOK k (userSetOf (tvIds ul)) (tvBucket (recommendForUser env (uid :: rest) k)) ∧
    bucketOK k (userSetOf (animeIds ul)) (animesBucket (recommendForUser env (uid :: rest) k)) ∧
    bucketOK k (userSetOf (gameIds ul)) (gamesBucket (recommendForUser env (uid :: rest) k)) := by
  have hempty : ∀ us : List String, bucketOK k us ([] : List Candidate) :=
    fun us => ⟨Nat.zero_le _, by simp⟩
  simp only [recommendForUser, h]
  obtain ⟨h1, h2, h3, h4⟩ := core_buckets env k ul
  refine ⟨?_, ?_, ?_, ?_⟩
  · rcases h1 with h1 | h1 <;> rw [h1]
    · exact hempty _
    · exact bucketFor_props env _ _ k _
  · rcases h2 with h2 | h2 <;> rw [h2]
    · exact hempty _
    · exact bucketFor_props env _ _ k _
  · rcases h3 with h3 | h3 <;> rw [h3]
    · exact hempty _
    · exact bucketFor_props env _ _ k _
  · rcases h4 with h4 | h4 <;> rw [h4]
    · exact hempty _
    · exact bucketFor_props env _ _ k _

/-- Witness for c1_bucket_invariants at the concrete Rocky scenario. -/
theorem c1_bucket_invariants_witness :
    (moviesBucket (recommendForUser envRocky ["u"] 3)).length ≤ 3 ∧
    (moviesBucket (recommendForUser envRocky ["u"] 3)).all
      (fun c => !((userSetOf (movieIds ulRocky)).contains c.id)) = true := by
  have h := c1_bucket_invariants envRocky "u" [] 3 ulRocky (by decide)
  refine ⟨h.1.1, ?_⟩
  rw [List.all_eq_true]
  intro c hc
  have := h.1.2 c hc
  simpa using this

/-- Claim C3: whenever the sequel-detection phase yields at least
perTypeCount candidates, the per-type aggregation returns exactly the first
perTypeCount sequel candidates.  The vector-index oracle vq, the hydration
oracle mf and the id-extraction oracle its are universally quantified and do
not occur in the hypothesis, so the result is independent of the
vector-similarity path - no similarity query influences the bucket. -/
theorem c3_sequel_priority (db : String → List ContentDoc)
    (vq : String → Nat → Except JsErr (List MatchRec))
    (mf : String → String → Option ContentDoc)
    (its : ContentDoc → Except JsErr (Option String))
    (cd : List ContentDoc) (ct : String) (k : Nat) (us : List String)
    (h : k ≤ (findSequelsAndSeries db cd ct us).length) :
    getRecommendationsByType db vq mf its cd ct k us
      = .ok ((findSequelsAndSeries db cd ct us).take k) := by
  have hbody : recsTryBody db vq mf its cd ct k us
      = .ok ((findSequelsAndSeries db cd ct us).take k) := by
    simp only [recsTryBody]
    rw [if_pos h]
  simp only [getRecommendationsByType, hbody]
  split
  · rename_i hcd
    have hk : k = 0 := by
      simp [findSequelsAndSeries, hcd] at h
      omega
    simp [findSequelsAndSeries, hcd, hk]
  · rfl

/-- Witness for c3_sequel_priority: in the Rocky scenario the sequel phase
yields 3 candidates and the bucket for topK 3 is exactly their first 3. -/
theorem c3_sequel_priority_witness :
    getRecommendationsByType envRocky.collections envRocky.vectorQuery envRocky.mongoFetch
      envRocky.idToString (rockyMovies.take 2) "movie" 3
      (userSetOf (movieIds ulRocky))
      = .ok ((findSequelsAndSeries envRocky.collections (rockyMovies.take 2) "movie"
          (userSetOf (movieIds ulRocky))).take 3) :=
  c3_sequel_priority envRocky.collections envRocky.vectorQuery envRocky.mongoFetch
    envRocky.idToString (rockyMovies.take 2) "movie" 3 (userSetOf (movieIds ulRocky))
    (by with_unfolding_all decide)

/-- Claim C4: the sequel detector caps its output at 10 candidates overall,
each consumed item contributes at most 3 candidates, and once the
10-candidate cap is reached further consumed items are not processed
(appending more input items cannot change the output). -/
theorem c4_sequel_caps :
    (∀ (db : String → List ContentDoc) (cd : List ContentDoc) (ct : String) (us : List String),
       (findSequelsAndSeries db cd ct us).length ≤ 10) ∧
    (∀ (db : String → List ContentDoc) (coll ct : String) (us : List String)
       (d : ContentDoc) (acc : List Candidate),
       (processItem db coll ct us d acc).length ≤ acc.length + 3) ∧
    (∀ (db : String → List ContentDoc) (cd more : List ContentDoc) (ct : String)
       (us : List String), 10 ≤ (findSequelsAndSeries db cd ct us).length →
       findSequelsAndSeries db (cd ++ more) ct us = findSequelsAndSeries db cd ct us) := by
  refine ⟨fun db cd ct us => findSequels_le10 db cd ct us, ?_, ?_⟩
  · intro db coll ct us d acc
    rcases processItem_length db coll ct us d acc with h | h <;> omega
  · intro db cd more ct us h
    unfold findSequelsAndSeries at h ⊢
    by_cases hcd : cd = []
    · rw [if_pos hcd] at h
      simp at h
    · rw [if_neg hcd] at h ⊢
      have hcdm : cd ++ more ≠ [] := by
        intro hx
        exact hcd (List.append_eq_nil.mp hx).1
      rw [if_neg hcdm]
      revert h
      cases hgc : getCollectionName ct with
      | error e => intro h; simp at h
      | ok coll => intro h; exact sequelLoop_stop db coll ct us cd more [] (by decide) h

/-- Witness for c4_sequel_caps at the saga scenario: 8 consumed items
already yield the 10-candidate cap and a 9th item is not processed. -/
theorem c4_sequel_caps_witness :
    (findSequelsAndSeries sagaDb (sagaConsumed.take 8) "movie" sagaSet).length ≤ 10 ∧
    (processItem sagaDb "movies" "movie" sagaSet (mkDoc "c1" "Saga 1") []).length ≤ 0 + 3 ∧
    findSequelsAndSeries sagaDb (sagaConsumed.take 8 ++ [mkDoc "c9" "Saga 9"]) "movie" sagaSet
      = findSequelsAndSeries sagaDb (sagaConsumed.take 8) "movie" sagaSet :=
  ⟨c4_sequel_caps.1 sagaDb (sagaConsumed.take 8) "movie" sagaSet,
   c4_sequel_caps.2.1 sagaDb "movies" "movie" sagaSet (mkDoc "c1" "Saga 1") [],
   c4_sequel_caps.2.2 sagaDb (sagaConsumed.take 8) [mkDoc "c9" "Saga 9"] "movie" sagaSet
     (by with_unfolding_all decide)⟩

theorem compareArrays_nonneg (a b : List String) : 0 ≤ compareArrays a b := by
  simp only [compareArrays]
  split
  · exact le_refl 0
  · split
    · exact le_refl 0
    · positivity

theorem compareArrays_zero (a b : List String) (h : a = [] ∨ b = []) :
    compareArrays a b = 0 := by
  unfold compareArrays
  rcases h with rfl | rfl <;> simp

theorem similarityContributions_nonneg (c1 c2 : ContentDoc) (ct : String) :
    0 ≤ similarityContributions c1 c2 ct := by
  unfold similarityContributions
  split_ifs <;>
    first
      | exact le_refl 0
      | (repeat' apply add_nonneg) <;> exact mul_nonneg (compareArrays_nonneg _ _) (by norm_num)

theorem similarityContributions_zero (c1 c2 : ContentDoc) (ct : String)
    (h : ∀ p ∈ comparedPairs c1 c2 ct, p.1 = [] ∨ p.2 = []) :
    similarityContributions c1 c2 ct = 0 := by
  unfold similarityContributions
  unfold comparedPairs at h
  split_ifs at h ⊢
  · simp only [List.mem_cons, List.not_mem_nil, or_false] at h
    rw [compareArrays_zero _ _ (h _ (Or.inl rfl)),
        compareArrays_zero _ _ (h _ (Or.inr (Or.inl rfl))),
        compareArrays_zero _ _ (h _ (Or.inr (Or.inr (Or.inl rfl)))),
        compareArrays_zero _ _ (h _ (Or.inr (Or.inr (Or.inr rfl))))]
    ring
  · simp only [List.mem_cons, List.not_mem_nil, or_false] at h
    rw [compareArrays_zero _ _ (h _ (Or.inl rfl)),
        compareArrays_zero _ _ (h _ (Or.inr (Or.inl rfl))),
        compareArrays_zero _ _ (h _ (Or.inr (Or.inr rfl)))]
    ring
  · simp only [List.mem_cons, List.not_mem_nil, or_false] at h
    rw [compareArrays_zero _ _ (h _ (Or.inl rfl)),
        compareArrays_zero _ _ (h _ (Or.inr (Or.inl rfl))),
        compareArrays_zero _ _ (h _ (Or.inr (Or.inr (Or.inl rfl)))),
        compareArrays_zero _ _ (h _ (Or.inr (Or.inr (Or.inr rfl))))]
    ring
  · simp only [List.mem_cons, List.not_mem_nil, or_false] at h
    rw [compareArrays_zero _ _ (h _ (Or.inl rfl)),
        compareArrays_zero _ _ (h _ (Or.inr (Or.inl rfl))),
        compareArrays_zero _ _ (h _ (Or.inr (Or.inr (Or.inl rfl)))),
        compareArrays_zero _ _ (h _ (Or.inr (Or.inr (Or.inr rfl))))]
    ring
  · rfl

/-- Claim C2: for any two documents and any content type the metadata
similarity score lies in the interval from 0.5 to 0.99; when no compared
attribute category is non-empty on both sides the score is exactly 0.5; the
result is capped at 0.99; and the function is deterministic (identical
inputs give an identical value - it is a pure function of its arguments). -/
theorem c2_similarity_bounds (c1 c2 : ContentDoc) (ct : String) :
    1/2 ≤ calculateMetadataSimilarity c1 c2 ct ∧
    calculateMetadataSimilarity c1 c2 ct ≤ 99/100 ∧
    ((∀ p ∈ comparedPairs c1 c2 ct, p.1 = [] ∨ p.2 = []) →
      calculateMetadataSimilarity c1 c2 ct = 1/2) ∧
    calculateMetadataSimilarity c1 c2 ct = calculateMetadataSimilarity c1 c2 ct := by
  have hE := similarityContributions_nonneg c1 c2 ct
  simp only [calculateMetadataSimilarity]
  refine ⟨?_, ?_, ?_, trivial⟩
  · split
    · norm_num
    · linarith
  · split
    · norm_num
    · rename_i hlt
      linarith [not_le.mp hlt]
  · intro h
    rw [similarityContributions_zero c1 c2 ct h]
    norm_num

/-- Witness for c2_similarity_bounds: two empty movie documents share no
non-empty category, so their score is exactly 0.5, inside the bounds. -/
theorem c2_similarity_bounds_witness :
    calculateMetadataSimilarity emptyDoc emptyDoc "movie" = 1/2 ∧
    1/2 ≤ calculateMetadataSimilarity emptyDoc emptyDoc "movie" ∧
    calculateMetadataSimilarity emptyDoc emptyDoc "movie" ≤ 99/100 :=
  ⟨(c2_similarity_bounds emptyDoc emptyDoc "movie").2.2.1 (by decide),
   (c2_similarity_bounds emptyDoc emptyDoc "movie").1,
   (c2_similarity_bounds emptyDoc emptyDoc "movie").2.1⟩

theorem firstMatchAux_some (p : List Char → Bool) :
    ∀ (rest pre r : List Char), firstMatchAux p pre rest = some r →
      ∃ k, k ≤ rest.length ∧ r = pre ++ rest.take k ∧ p (rest.drop k) = true ∧
        ∀ j < k, p (rest.drop j) = false := by
  intro rest
  induction rest with
  | nil =>
      intro pre r h
      unfold firstMatchAux at h
      split at h
      · rename_i hp
        rcases Option.some.inj h with rfl
        exact ⟨0, by simp, by simp, by simpa using hp, by omega⟩
      · exact absurd h (by simp)
  | cons c rest' ih =>
      intro pre r h
      unfold firstMatchAux at h
      split at h
      · rename_i hp
        rcases Option.some.inj h with rfl
        exact ⟨0, by simp, by simp, by simpa using hp, by omega⟩
      · rename_i hp
        rcases ih (pre ++ [c]) r h with ⟨k', hk', hr, hdrop, hmin⟩
        refine ⟨k' + 1, by simpa using hk', ?_, ?_, ?_⟩
        · rw [hr]
          simp [List.take_succ_cons]
        · simpa using hdrop
        · intro j hj
          cases j with
          | zero => simpa using Bool.of_not_eq_true hp
          | succ j' => simpa using hmin j' (by omega)

theorem firstMatchPre_some (p : List Char → Bool) (s r : List Char)
    (h : firstMatchPre p s = some r) :
    r = s.take r.length ∧ p (s.drop r.length) = true ∧
      ∀ j < r.length, p (s.drop j) = false := by
  rcases firstMatchAux_some p s [] r h with ⟨k, hk, hr, hdrop, hmin⟩
  simp only [List.nil_append] at hr
  have hlen : r.length = k := by
    rw [hr, List.length_take]
    omega
  rw [hlen, hr]
  exact ⟨rfl, hdrop, hmin⟩

/-- Claim C5: series-identity extraction tries the number pattern, then the
season pattern, then the franchise pattern, and uses the first match's
(trimmed) capture as the series name; any capture returned by firstMatchPre
is the shortest prefix whose remainder matches the embedded regex tail; when
no pattern matches, the whole title is the series identity exactly when the
title is longer than 4 characters and otherwise no identity is derived; and
an item whose title yields no identity contributes no sequel candidates. -/
theorem c5_series_identity :
    (∀ title pre, firstMatchPre matchNumTail title = some pre →
       (extractSeriesInfo title).seriesName = some (trimWS pre)) ∧
    (∀ title pre, firstMatchPre matchNumTail title = none →
       firstMatchPre matchSeasonTail title = some pre →
       (extractSeriesInfo title).seriesName = some (trimWS pre)) ∧
    (∀ title pre, firstMatchPre matchNumTail title = none →
       firstMatchPre matchSeasonTail title = none →
       firstMatchPre matchFranchiseTail title = some pre →
       (extractSeriesInfo title).seriesName = some (trimWS pre)) ∧
    (∀ title, firstMatchPre matchNumTail title = none →
       firstMatchPre matchSeasonTail title = none →
       firstMatchPre matchFranchiseTail title = none →
       ((extractSeriesInfo title).seriesName = some title ↔ 4 < title.length) ∧
       ((extractSeriesInfo title).seriesName = none ↔ title.length ≤ 4)) ∧
    (∀ p (s pre : List Char), firstMatchPre p s = some pre →
       pre = s.take pre.length ∧ p (s.drop pre.length) = true ∧
       ∀ j < pre.length, p (s.drop j) = false) ∧
    (∀ (db : String → List ContentDoc) (coll ct : String) (us : List String)
       (d : ContentDoc) (acc : List Candidate),
       (extractSeriesInfo (firstTitle d)).seriesName = none →
       processItem db coll ct us d acc = acc) := by
  refine ⟨?_, ?_, ?_, ?_, fun p s pre h => firstMatchPre_some p s pre h, ?_⟩
  · intro title pre h1
    simp [extractSeriesInfo, h1]
  · intro title pre h1 h2
    simp [extractSeriesInfo, h1, h2]
  · intro title pre h1 h2 h3
    simp [extractSeriesInfo, h1, h2, h3]
  · intro title h1 h2 h3
    simp only [extractSeriesInfo, h1, h2, h3]
    split
    · rename_i hlen
      refine ⟨iff_of_true rfl hlen, iff_of_false (by simp) (by omega)⟩
    · rename_i hlen
      refine ⟨iff_of_false (by simp) hlen, iff_of_true rfl (by omega)⟩
  · intro db coll ct us d acc hz
    simp only [processItem]
    split
    · rfl
    · rw [hz]

/-- Witness for c5_series_identity: the number pattern matches Rocky 2 with
capture Rocky; no pattern matches Hello, which is long enough to fall back
to the whole title; no pattern matches Hi, which is too short, so the item
titled Hi contributes no sequel candidates. -/
theorem c5_series_identity_witness :
    (extractSeriesInfo "Rocky 2".toList).seriesName = some (trimWS "Rocky".toList) ∧
    (extractSeriesInfo "Hello".toList).seriesName = some "Hello".toList ∧
    (extractSeriesInfo "Hi".toList).seriesName = none ∧
    processItem (fun _ => []) "movies" "movie" [] (mkDoc "h" "Hi") [] = [] := by
  have h1 := c5_series_identity.1 "Rocky 2".toList "Rocky".toList (by decide)
  have h4 := (c5_series_identity.2.2.2.1 "Hello".toList
    (by decide) (by decide) (by decide)).1.mpr (by decide)
  have h5 := (c5_series_identity.2.2.2.1 "Hi".toList
    (by decide) (by decide) (by decide)).2.mpr (by decide)
  have h6 := c5_series_identity.2.2.2.2.2 (fun _ => []) "movies" "movie" []
    (mkDoc "h" "Hi") [] (by decide)
  exact ⟨h1, h4, h5, h6⟩

/-- Claim C6: recommendById never returns the queried item itself and
returns at most topK candidates, for every behavior of the vector index and
of the document store - in particular when the index returns the queried
item among its matches. -/
theorem c6_recommendById_excludes_self (vq : String → Nat → Except JsErr (List MatchRec))
    (mf : String → String → Option ContentDoc) (itemId : String) (topK : Nat) :
    (recommendById vq mf itemId topK).length ≤ topK ∧
    ∀ c ∈ recommendById vq mf itemId topK, c.id ≠ itemId := by
  unfold recommendById
  cases vq itemId (topK + 1) with
  | error e => exact ⟨Nat.zero_le _, by simp⟩
  | ok ms =>
      constructor
      · exact le_trans (List.length_filterMap_le _ _) (List.length_take_le _ _)
      · intro c hc
        rcases List.mem_filterMap.mp hc with ⟨m, hm, hf⟩
        have hne : m.id ≠ itemId := by
          have hmem := List.mem_of_mem_take hm
          have := List.of_mem_filter hmem
          simpa using this
        split at hf
        · exact absurd hf (by simp)
        · rcases Option.map_eq_some'.mp hf with ⟨doc, hdoc, rfl⟩
          exact hne

/-- Witness for c6_recommendById_excludes_self at scenario B: the index
returns six matches including X itself, the result has at most 5 entries and
excludes X. -/
theorem c6_recommendById_excludes_self_witness :
    (recommendById vqScenB mfScenB "X" 5).length ≤ 5 ∧
    (recommendById vqScenB mfScenB "X" 5).all (fun c => !(c.id == "X")) = true := by
  have h := c6_recommendById_excludes_self vqScenB mfScenB "X" 5
  refine ⟨h.1, ?_⟩
  rw [List.all_eq_true]
  intro c hc
  simpa using h.2 c hc

theorem recsTryBody_nil_ok (db : String → List ContentDoc)
    (vq : String → Nat → Except JsErr (List MatchRec))
    (mf : String → String → Option ContentDoc)
    (its : ContentDoc → Except JsErr (Option String))
    (ct : String) (k : Nat) (us : List String) :
    ∃ l, recsTryBody db vq mf its [] ct k us = .ok l := by
  simp only [recsTryBody]
  split
  · exact ⟨_, rfl⟩
  · exact ⟨_, rfl⟩

/-- Claim C7: recommendForUser never surfaces an exception: an empty user-id
list and a missing user-lists document give the empty outcome; a raised
per-type aggregation error is degraded to an empty bucket by the per-type
catch handler; and every call returns an outcome (empty or four buckets). -/
theorem c7_never_raises :
    (∀ (env : Env) (k : Nat), recommendForUser env [] k = .empty) ∧
    (∀ (env : Env) (uid : String) (rest : List String) (k : Nat),
       env.userLists uid = none → recommendForUser env (uid :: rest) k = .empty) ∧
    (∀ (db : String → List ContentDoc) (vq : String → Nat → Except JsErr (List MatchRec))
       (mf : String → String → Option ContentDoc)
       (its : ContentDoc → Except JsErr (Option String))
       (cd : List ContentDoc) (ct : String) (k : Nat) (us : List String) (e : JsErr),
       getRecommendationsByType db vq mf its cd ct k us = .error e →
       recsOrEmpty (getRecommendationsByType db vq mf its cd ct k us) = []) ∧
    (∀ (env : Env) (uids : List String) (k : Nat),
       recommendForUser env uids k = .empty ∨
       ∃ m tv an g, recommendForUser env uids k = .result m tv an g) := by
  refine ⟨fun env k => rfl, ?_, ?_, ?_⟩
  · intro env uid rest k h
    simp [recommendForUser, h]
  · intro db vq mf its cd ct k us e h
    simp [h, recsOrEmpty]
  · intro env uids k
    cases hoc : recommendForUser env uids k with
    | empty => exact Or.inl rfl
    | result m tv an g => exact Or.inr ⟨m, tv, an, g, rfl⟩

/-- Witness for c7_never_raises: a missing user gives the empty outcome, and
the raising aggregation of the C10 scenario contributes an empty bucket. -/
theorem c7_never_raises_witness :
    recommendForUser envNoUser ["u"] 5 = .empty ∧
    recsOrEmpty (getRecommendationsByType envThrowing.collections envThrowing.vectorQuery
      envThrowing.mongoFetch envThrowing.idToString [docHW] "movie" 3 ["hw"]) = [] := by
  refine ⟨c7_never_raises.2.1 envNoUser "u" [] 5 rfl, ?_⟩
  exact c7_never_raises.2.2.1 envThrowing.collections envThrowing.vectorQuery
    envThrowing.mongoFetch envThrowing.idToString [docHW] "movie" 3 ["hw"]
    .referenceError (by with_unfolding_all decide)

/-- Claim C10: the catch clause of getRecommendationsByType reads the
try-scoped const sequelRecs, which is not in scope there, so whenever the
try body raises, the function raises a ReferenceError to its caller instead
of returning the sequel recommendations gathered so far, and the caller's
per-type catch substitutes an empty bucket. -/
theorem c10_catch_scope_bug (db : String → List ContentDoc)
    (vq : String → Nat → Except JsErr (List MatchRec))
    (mf : String → String → Option ContentDoc)
    (its : ContentDoc → Except JsErr (Option String))
    (cd : List ContentDoc) (ct : String) (k : Nat) (us : List String) (e : JsErr)
    (h : recsTryBody db vq mf its cd ct k us = .error e) :
    getRecommendationsByType db vq mf its cd ct k us = .error .referenceError ∧
    (∀ l, getRecommendationsByType db vq mf its cd ct k us ≠ .ok l) ∧
    recsOrEmpty (getRecommendationsByType db vq mf its cd ct k us) = [] := by
  have hcd : cd ≠ [] := by
    intro hnil
    subst hnil
    rcases recsTryBody_nil_ok db vq mf its ct k us with ⟨l, hl⟩
    rw [hl] at h
    exact Except.noConfusion h
  have hmain : getRecommendationsByType db vq mf its cd ct k us = .error .referenceError := by
    simp only [getRecommendationsByType]
    rw [if_neg hcd, h]
  refine ⟨hmain, ?_, ?_⟩
  · intro l hl
    rw [hmain] at hl
    exact Except.noConfusion hl
  · rw [hmain]
    rfl

/-- Witness for c10_catch_scope_bug: in the throwing scenario the
id-extraction step raises a TypeError inside the try body and the function
returns the ReferenceError of the catch clause, which the caller maps to an
empty bucket. -/
theorem c10_catch_scope_bug_witness :
    getRecommendationsByType envThrowing.collections envThrowing.vectorQuery
      envThrowing.mongoFetch envThrowing.idToString [docHW] "movie" 3 ["hw"]
      = .error .referenceError ∧
    recsOrEmpty (getRecommendationsByType envThrowing.collections envThrowing.vectorQuery
      envThrowing.mongoFetch envThrowing.idToString [docHW] "movie" 3 ["hw"]) = [] := by
  have h := c10_catch_scope_bug envThrowing.collections envThrowing.vectorQuery
    envThrowing.mongoFetch envThrowing.idToString [docHW] "movie" 3 ["hw"]
    .typeError (by with_unfolding_all decide)
  exact ⟨h.1, h.2.2⟩

theorem withRetryGo_sleeps {α : Type} (fn : Nat → AttemptOutcome α) (maxR : Nat) (w : ℚ) :
    ∀ (r attempt : Nat), ∃ n : Nat,
      (withRetryGo fn maxR w attempt r).2
        = (List.range n).map (fun j => waitTime w (attempt + j)) := by
  intro r
  induction r with
  | zero => exact fun attempt => ⟨0, rfl⟩
  | succ r ih =>
      intro attempt
      cases hfa : fn attempt with
      | success a => exact ⟨0, by simp [withRetryGo, hfa]⟩
      | rateLimit =>
          obtain ⟨n, hn⟩ := ih (attempt + 1)
          refine ⟨n + 1, ?_⟩
          simp only [withRetryGo, hfa, hn, List.range_succ_eq_map, List.map_cons, List.map_map]
          have h2 : List.map (fun j => waitTime w (attempt + 1 + j)) (List.range n)
              = List.map ((fun j => waitTime w (attempt + j)) ∘ Nat.succ) (List.range n) :=
            List.map_congr_left (fun j _ => by
              simp only [Function.comp_apply]
              exact congrArg (waitTime w) (by omega))
          rw [h2, show waitTime w attempt = waitTime w (attempt + 0) from
            congrArg (waitTime w) (by omega)]
      | timeout =>
          obtain ⟨n, hn⟩ := ih (attempt + 1)
          refine ⟨n + 1, ?_⟩
          simp only [withRetryGo, hfa, hn, List.range_succ_eq_map, List.map_cons, List.map_map]
          have h2 : List.map (fun j => waitTime w (attempt + 1 + j)) (List.range n)
              = List.map ((fun j => waitTime w (attempt + j)) ∘ Nat.succ) (List.range n) :=
            List.map_congr_left (fun j _ => by
              simp only [Function.comp_apply]
              exact congrArg (waitTime w) (by omega))
          rw [h2, show waitTime w attempt = waitTime w (attempt + 0) from
            congrArg (waitTime w) (by omega)]
      | other =>
          by_cases hlt : attempt < maxR
          · obtain ⟨n, hn⟩ := ih (attempt + 1)
            refine ⟨n + 1, ?_⟩
            simp only [withRetryGo, hfa, if_pos hlt, hn, List.range_succ_eq_map,
              List.map_cons, List.map_map]
            have h2 : List.map (fun j => waitTime w (attempt + 1 + j)) (List.range n)
                = List.map ((fun j => waitTime w (attempt + j)) ∘ Nat.succ) (List.range n) :=
              List.map_congr_left (fun j _ => by
                simp only [Function.comp_apply]
                exact congrArg (waitTime w) (by omega))
            rw [h2, show waitTime w attempt = waitTime w (attempt + 0) from
              congrArg (waitTime w) (by omega)]
          · exact ⟨0, by simp [withRetryGo, hfa, if_neg hlt]⟩

theorem get_of_eq_range_map (l : List ℚ) (n : Nat) (f : Nat → ℚ)
    (hl : l = (List.range n).map f) (i : Nat) (h : i < l.length) :
    l.get ⟨i, h⟩ = f i := by
  subst hl
  simp

theorem withRetryGo_err {α : Type} (fn : Nat → AttemptOutcome α) (maxR : Nat) (w : ℚ)
    (hfail : ∀ a x, fn a ≠ .success x) :
    ∀ (r attempt : Nat), ∃ e, (withRetryGo fn maxR w attempt r).1 = .error e := by
  intro r
  induction r with
  | zero => exact fun attempt => ⟨.exhausted, rfl⟩
  | succ r ih =>
      intro attempt
      cases hfa : fn attempt with
      | success a => exact absurd hfa (hfail attempt a)
      | rateLimit =>
          obtain ⟨e, he⟩ := ih (attempt + 1)
          exact ⟨e, by simp only [withRetryGo, hfa]; exact he⟩
      | timeout =>
          obtain ⟨e, he⟩ := ih (attempt + 1)
          exact ⟨e, by simp only [withRetryGo, hfa]; exact he⟩
      | other =>
          by_cases hlt : attempt < maxR
          · obtain ⟨e, he⟩ := ih (attempt + 1)
            exact ⟨e, by simp only [withRetryGo, hfa, if_pos hlt]; exact he⟩
          · exact ⟨.original, by simp only [withRetryGo, hfa, if_neg hlt]⟩

theorem withRetryGo_congr {α : Type} (fn g : Nat → AttemptOutcome α) (maxR : Nat) (w : ℚ)
    (hag : ∀ a, a ≤ maxR → fn a = g a) :
    ∀ (r attempt : Nat), attempt + r = maxR + 1 →
      withRetryGo fn maxR w attempt r = withRetryGo g maxR w attempt r := by
  intro r
  induction r with
  | zero => intro attempt hlink; rfl
  | succ r ih =>
      intro attempt hlink
      have hfg : fn attempt = g attempt := hag attempt (by omega)
      cases hga : g attempt with
      | success a => simp only [withRetryGo, hfg, hga]
      | rateLimit => simp only [withRetryGo, hfg, hga, ih (attempt + 1) (by omega)]
      | timeout => simp only [withRetryGo, hfg, hga, ih (attempt + 1) (by omega)]
      | other =>
          by_cases hlt : attempt < maxR
          · simp only [withRetryGo, hfg, hga, if_pos hlt, ih (attempt + 1) (by omega)]
          · simp only [withRetryGo, hfg, hga, if_neg hlt]

/-- Claim C8: with initialWait 4400 the back-off before the retry that
follows attempt n is 4400 times 1.5 to the power n - 1 (4400, 6600, 9900 ms
for attempts 1..3); the i-th logged sleep of a run equals that formula for
attempt i + 1 whatever mix of rate-limit, timeout and other errors occurred;
a run whose attempts all fail - with any mix of error kinds - raises an
error; and the function consults attempts 1..maxRetries only, so every error
kind is retried up to the same attempt cap. -/
theorem c8_retry_backoff :
    (waitTime 4400 1 = 4400 ∧ waitTime 4400 2 = 6600 ∧ waitTime 4400 3 = 9900) ∧
    (∀ n : Nat, waitTime 4400 n = 4400 * (3/2 : ℚ) ^ (n - 1)) ∧
    (∀ (α : Type) (fn : Nat → AttemptOutcome α) (maxR i : Nat)
       (h : i < (withRetry fn maxR 4400).2.length),
       (withRetry fn maxR 4400).2.get ⟨i, h⟩ = 4400 * (3/2 : ℚ) ^ i) ∧
    (∀ (α : Type) (fn : Nat → AttemptOutcome α) (maxR : Nat),
       (∀ a x, fn a ≠ .success x) →
       ∃ e : RetryErr, (withRetry fn maxR 4400).1 = .error e) ∧
    (∀ (α : Type) (fn g : Nat → AttemptOutcome α) (maxR : Nat) (w : ℚ),
       (∀ a, a ≤ maxR → fn a = g a) → withRetry fn maxR w = withRetry g maxR w) := by
  refine ⟨⟨?_, ?_, ?_⟩, fun n => rfl, ?_, ?_, ?_⟩
  · norm_num [waitTime]
  · norm_num [waitTime]
  · norm_num [waitTime]
  · intro α fn maxR i h
    unfold withRetry at h ⊢
    obtain ⟨n, hn⟩ := withRetryGo_sleeps fn maxR 4400 maxR 1
    rw [get_of_eq_range_map _ n _ hn i h]
    show (4400 : ℚ) * (3/2) ^ (1 + i - 1) = 4400 * (3/2) ^ i
    norm_num
  · intro α fn maxR hfail
    exact withRetryGo_err fn maxR 4400 hfail maxR 1
  · intro α fn g maxR w hag
    exact withRetryGo_congr fn g maxR w hag maxR 1 (by omega)

/-- Witness for c8_retry_backoff: concrete waits for attempts 1..3, an
all-other-error run that raises after exhausting its attempts, and its first
logged sleep. -/
theorem c8_retry_backoff_witness :
    waitTime 4400 1 = 4400 ∧ waitTime 4400 2 = 6600 ∧ waitTime 4400 3 = 9900 ∧
    (∃ e, (withRetry (fun _ => (AttemptOutcome.other : AttemptOutcome Unit)) 3 4400).1
        = .error e) ∧
    (∃ h0 : 0 < (withRetry (fun _ => (AttemptOutcome.other : AttemptOutcome Unit))
        3 4400).2.length,
      (withRetry (fun _ => (AttemptOutcome.other : AttemptOutcome Unit)) 3 4400).2.get
        ⟨0, h0⟩ = 4400 * (3/2 : ℚ) ^ 0) := by
  refine ⟨c8_retry_backoff.1.1, c8_retry_backoff.1.2.1, c8_retry_backoff.1.2.2, ?_, ?_⟩
  · exact c8_retry_backoff.2.2.2.1 Unit (fun _ => .other) 3
      (fun a x h => AttemptOutcome.noConfusion h)
  · have h0 : 0 < (withRetry (fun _ => (AttemptOutcome.other : AttemptOutcome Unit))
        3 4400).2.length := by decide
    exact ⟨h0, c8_retry_backoff.2.2.1 Unit (fun _ => .other) 3 0 h0⟩

theorem ingestLoop_complete (docs : List String) (outcome : Nat → Bool) :
    ∀ (fuel iter : Nat) (st : IngestState),
      st.processed ≤ docs.length → st.failedAttempts ≤ 4 →
      5 * (docs.length - st.processed) + (4 - st.failedAttempts) ≤ fuel →
      (ingestLoop docs outcome fuel iter st).processed = docs.length := by
  intro fuel
  induction fuel with
  | zero =>
      intro iter st hp hf hm
      simp only [ingestLoop]
      omega
  | succ fuel ih =>
      intro iter st hp hf hm
      simp only [ingestLoop]
      have hblen : (currentBatch docs st).length = min 50 (docs.length - st.processed) := by
        simp [currentBatch, List.length_take, List.length_drop]
      by_cases hcb : currentBatch docs st = []
      · have hple : docs.length ≤ st.processed := by
          have h0 : (currentBatch docs st).length = 0 := by rw [hcb]; rfl
          rw [hblen] at h0
          omega
        have hstep : ingestStep docs (outcome iter) st = none := by
          simp [ingestStep, hcb]
        rw [hstep]
        show st.processed = docs.length
        omega
      · have hbpos : 0 < (currentBatch docs st).length := List.length_pos.mpr hcb
        have hble : (currentBatch docs st).length ≤ docs.length - st.processed := by
          rw [hblen]; omega
        cases hok : outcome iter with
        | true =>
            have hstep : ingestStep docs true st
                = some { processed := st.processed + (currentBatch docs st).length,
                         failedAttempts := 0,
                         ingested := st.ingested ++ currentBatch docs st } := by
              simp [ingestStep, hcb]
            rw [hstep]
            refine ih (iter + 1) _ ?_ ?_ ?_ <;> simp <;> omega
        | false =>
            by_cases hskip : 5 ≤ st.failedAttempts + 1
            · have hstep : ingestStep docs false st
                  = some { processed := st.processed + (currentBatch docs st).length,
                           failedAttempts := 0, ingested := st.ingested } := by
                simp [ingestStep, hcb, hskip]
              rw [hstep]
              refine ih (iter + 1) _ ?_ ?_ ?_ <;> simp <;> omega
            · have hstep : ingestStep docs false st
                  = some { processed := st.processed,
                           failedAttempts := st.failedAttempts + 1,
                           ingested := st.ingested } := by
                simp [ingestStep, hcb, hskip]
              rw [hstep]
              refine ih (iter + 1) _ ?_ ?_ ?_ <;> simp <;> omega

/-- Claim C9: a batch whose fifth consecutive processing attempt fails is
skipped - its records are counted as processed, nothing is ingested, the
consecutive-failure counter resets, and the cursor advances - and as a
consequence ingestion of a finite collection always runs to completion,
whatever the per-iteration success pattern. -/
theorem c9_batch_skip :
    (∀ (docs : List String) (st : IngestState), st.failedAttempts = 4 →
       currentBatch docs st ≠ [] →
       ingestStep docs false st
         = some { processed := st.processed + (currentBatch docs st).length,
                  failedAttempts := 0, ingested := st.ingested }) ∧
    (∀ (docs : List String) (outcome : Nat → Bool),
       (ingestCollection docs outcome).processed = docs.length) := by
  constructor
  · intro docs st h4 hne
    simp [ingestStep, hne, h4]
  · intro docs outcome
    unfold ingestCollection
    refine ingestLoop_complete docs outcome _ 0 _ ?_ ?_ ?_ <;> simp

/-- Witness for c9_batch_skip: a one-document batch in the skip state is
marked processed without ingesting, and a two-document collection whose
batches always fail still completes. -/
theorem c9_batch_skip_witness :
    ingestStep ["a"] false ({ processed := 0, failedAttempts := 4, ingested := [] } : IngestState)
      = some ({ processed := 1, failedAttempts := 0, ingested := [] } : IngestState) ∧
    (ingestCollection ["a", "b"] (fun _ => false)).processed = 2 := by
  constructor
  · have h := c9_batch_skip.1 ["a"]
      ({ processed := 0, failedAttempts := 4, ingested := [] } : IngestState) rfl (by decide)
    simpa [currentBatch] using h
  · have h := c9_batch_skip.2 ["a", "b"] (fun _ => false)
    simpa using h
